import Mathlib

/-!
Verification development for transcribe_and_translate_dual_vtt.py: a shallow
embedding of the script's pure core (timestamp formatting, language
classification, per-segment enrichment, and the four subtitle emitters),
with theorems checking the specification's claims against it.

Conventions of the embedding:
* Python floats become rationals.
* Python str.strip() becomes pyStrip.
* Python round() (round-half-to-even on floats) becomes pyRound.
* External capabilities (langdetect, whisper, ffmpeg) become oracle
  parameters: functions and records supplying their outcomes.
-/

/-- Whitespace characters removed by Python str.strip (ASCII subset). -/
def pyIsSpace (c : Char) : Bool :=
  c = ' ' || c = '\t' || c = '\n' || c = '\x0d' || c = '\x0b' || c = '\x0c'

/-- Character-list core of str.strip: drop whitespace from both ends. -/
def stripChars (l : List Char) : List Char :=
  ((l.dropWhile pyIsSpace).reverse.dropWhile pyIsSpace).reverse

/-- Embedding of Python str.strip(). -/
def pyStrip (s : String) : String :=
  String.mk (stripChars s.data)

/-- Embedding of Python round() on a rational: round half to even. -/
def pyRound (x : ℚ) : ℤ :=
  if x - ⌊x⌋ < 1/2 then ⌊x⌋
  else if 1/2 < x - ⌊x⌋ then ⌊x⌋ + 1
  else if ⌊x⌋ % 2 = 0 then ⌊x⌋ else ⌊x⌋ + 1

/-- Millisecond field computed by both timestamp formatters:
ms = int(round((seconds - floor(seconds)) * 1000)). -/
def msOf (seconds : ℚ) : ℕ :=
  (pyRound ((seconds - ⌊seconds⌋) * 1000)).toNat

/-- total_seconds = int(floor(seconds)). -/
def totalSecondsOf (seconds : ℚ) : ℕ :=
  (⌊seconds⌋).toNat

/-- s = total_seconds % 60. -/
def sOf (seconds : ℚ) : ℕ := totalSecondsOf seconds % 60

/-- m = (total_seconds // 60) % 60. -/
def mOf (seconds : ℚ) : ℕ := totalSecondsOf seconds / 60 % 60

/-- h = total_seconds // 3600 (no cap at 24). -/
def hOf (seconds : ℚ) : ℕ := totalSecondsOf seconds / 3600

/-- Python f-string zero padding of a natural number to width w. -/
def padZero (w : ℕ) (n : ℕ) : String :=
  let s := toString n
  if s.length < w then String.mk (List.replicate (w - s.length) '0') ++ s else s

/-- seconds_to_vtt_timestamp: HH:MM:SS.mmm with a period separator. -/
def seconds_to_vtt_timestamp (seconds : ℚ) : String :=
  padZero 2 (hOf seconds) ++ ":" ++ padZero 2 (mOf seconds) ++ ":"
    ++ padZero 2 (sOf seconds) ++ "." ++ padZero 3 (msOf seconds)

/-- seconds_to_srt_timestamp: HH:MM:SS,mmm with a comma separator. -/
def seconds_to_srt_timestamp (seconds : ℚ) : String :=
  padZero 2 (hOf seconds) ++ ":" ++ padZero 2 (mOf seconds) ++ ":"
    ++ padZero 2 (sOf seconds) ++ "," ++ padZero 3 (msOf seconds)

/-! Evaluation lemmas for the rational-arithmetic layer.  Rational
operations do not reduce inside the kernel, so concrete evaluations are
done by rewriting with these lemmas before handing the residual
natural-number/string goal to decide. -/

lemma pyRound_eq_floor (x : ℚ) (n : ℤ) (h : ⌊x⌋ = n) (h2 : x - n < 1/2) :
    pyRound x = n := by
  unfold pyRound
  rw [h, if_pos h2]

lemma pyRound_eq_floor_add_one (x : ℚ) (n : ℤ) (h : ⌊x⌋ = n) (h2 : 1/2 < x - n) :
    pyRound x = n + 1 := by
  unfold pyRound
  rw [h, if_neg (by linarith), if_pos h2]

lemma pyRound_intCast (n : ℤ) : pyRound ((n : ℚ)) = n := by
  have h : ⌊((n : ℚ))⌋ = n := Int.floor_intCast n
  refine pyRound_eq_floor _ n h ?_
  rw [sub_self]
  norm_num

lemma msOf_eval (q : ℚ) (t m : ℤ) (ht : ⌊q⌋ = t) (hm : (q - t) * 1000 = (m : ℚ)) :
    msOf q = m.toNat := by
  unfold msOf
  rw [ht, hm, pyRound_intCast]

lemma msOf_eval_up (q : ℚ) (t n : ℤ) (ht : ⌊q⌋ = t)
    (hn : ⌊(q - t) * 1000⌋ = n) (h2 : 1/2 < (q - t) * 1000 - n) :
    msOf q = (n + 1).toNat := by
  unfold msOf
  rw [ht, pyRound_eq_floor_add_one _ n hn h2]

lemma totalSecondsOf_eval (q : ℚ) (t : ℤ) (ht : ⌊q⌋ = t) :
    totalSecondsOf q = t.toNat := by
  unfold totalSecondsOf
  rw [ht]

/-- pyRound lands within a half of its argument: the formatters round
milliseconds to the nearest integer. -/
lemma pyRound_close (x : ℚ) : |((pyRound x : ℤ) : ℚ) - x| ≤ 1/2 := by
  have h0 : ((⌊x⌋ : ℤ) : ℚ) ≤ x := Int.floor_le x
  have h1 : x < ((⌊x⌋ : ℤ) : ℚ) + 1 := Int.lt_floor_add_one x
  unfold pyRound
  split_ifs with ha hb hc
  all_goals rw [abs_le]
  all_goals push_cast
  all_goals constructor
  all_goals linarith

/-! The data model.  A raw segment is what the whole-file transcription
pass returns: a dict that may lack start/end, with a text field read via
.get("text","").  An (enriched) Segment is the record the per-segment
loop appends to the processed list and hands to the emitters. -/

/-- A raw whisper segment dict: start/end may be absent. -/
structure RawSeg where
  start : Option ℚ
  stop : Option ℚ
  text : String
deriving DecidableEq

/-- Result dict of a model.transcribe call: a segments list and a
top-level text field. -/
structure TranscribeResult where
  segments : List RawSeg
  text : String
deriving DecidableEq

/-- An enriched segment record {start, end, lang, text, translation}. -/
structure Segment where
  start : ℚ
  stop : ℚ
  lang : String
  text : String
  translation : Option String
deriving DecidableEq

/-- transcribe_segment_audio: join the per-segment texts (each stripped)
with single spaces and strip the result; if the segments list is empty,
fall back to the stripped top-level text. -/
def transcribe_segment_audio (res : TranscribeResult) : String :=
  match res.segments with
  | [] => pyStrip res.text
  | s :: rest => pyStrip (String.intercalate " " ((s :: rest).map (fun x => pyStrip x.text)))

/-- Character-list core of str.startswith. -/
def startsWithChars : List Char → List Char → Bool
  | [], _ => true
  | _ :: _, [] => false
  | p :: ps, s :: ss => p == s && startsWithChars ps ss

/-- Embedding of Python str.startswith(p). -/
def strStartsWith (s p : String) : Bool :=
  startsWithChars p.data s.data

/-- detect_lang_of_text: call langdetect (modelled as an oracle d that
either fails, LangDetectException, or returns a code); on failure return
"", map codes starting with "pt"/"es" to "pt"/"es", and pass any other
code through unchanged. -/
def detect_lang_of_text (d : String → Except Unit String) (text : String) : String :=
  match d text with
  | Except.error _ => ""
  | Except.ok lang =>
    if strStartsWith lang "pt" then "pt"
    else if strStartsWith lang "es" then "es"
    else lang

/-- Line 212: detected = detect_lang_of_text(text) if text else "". -/
def detectedLangOf (d : String → Except Unit String) (text0 : String) : String :=
  if text0 ≠ "" then detect_lang_of_text d text0 else ""

/-- Per-run context: the two relevant flags plus the overall language
whisper reported for the whole file (a dict .get, hence optional). -/
structure RunCtx where
  refine_per_segment : Bool
  no_translate : Bool
  overall_lang : Option String
deriving DecidableEq

/-- Line 213: chosen_lang = detected if detected else (overall_lang if
overall_lang else ""). -/
def chosenLangOf (ctx : RunCtx) (d : String → Except Unit String) (text0 : String) : String :=
  if detectedLangOf d text0 ≠ "" then detectedLangOf d text0
  else
    match ctx.overall_lang with
    | some l => if l ≠ "" then l else ""
    | none => ""

/-- Line 216: the refinement condition
args.refine_per_segment and chosen_lang in ("pt","es"). -/
def refineGate (ctx : RunCtx) (chosen : String) : Bool :=
  ctx.refine_per_segment && (chosen == "pt" || chosen == "es")

/-- Outcomes of the external calls made for one segment: whether each
ffmpeg slice extraction succeeds, and what whisper returns on each
successfully extracted slice. -/
structure SegOracles where
  refineExtractOk : Bool
  refineRes : TranscribeResult
  transExtractOk : Bool
  transRes : TranscribeResult

/-- Lines 216-233, the refinement try/except block's effect on text:
when the gate is closed the block does not run; when extraction fails
the CalledProcessError is caught and text is left unchanged; otherwise
text is replaced only if the re-transcription is non-empty. -/
def refinedText (gate extractOk : Bool) (res : TranscribeResult) (text0 : String) : String :=
  if gate then
    if extractOk then
      if transcribe_segment_audio res ≠ "" then transcribe_segment_audio res else text0
    else text0
  else text0

/-- Lines 244-262, the translation try/except block's effect on the
translation field: skipped entirely under --no-translate; extraction
failure is caught and leaves translation None; a non-empty result is
stored, an empty one leaves None. -/
def translationOf (doTranslate extractOk : Bool) (res : TranscribeResult) : Option String :=
  if doTranslate then
    if extractOk then
      if transcribe_segment_audio res ≠ "" then some (transcribe_segment_audio res) else none
    else none
  else none

/-- The finally block (lines 228-233 / 257-262): if the slice file
exists it is removed, and a removal failure is swallowed (the file then
simply remains).  Returns whether the slice file still exists after. -/
def sliceFileRemains (existsAtFinally removeOk : Bool) : Bool :=
  if existsAtFinally then (if removeOk then false else true) else false

/-- Lines 206-264: processing of one raw segment into its enriched
record. -/
def processSegment (ctx : RunCtx) (d : String → Except Unit String)
    (o : SegOracles) (seg : RawSeg) : Segment :=
  { start := seg.start.getD 0
    stop := seg.stop.getD (seg.start.getD 0 + 1/2)
    lang := chosenLangOf ctx d (pyStrip seg.text)
    text := refinedText (refineGate ctx (chosenLangOf ctx d (pyStrip seg.text)))
      o.refineExtractOk o.refineRes (pyStrip seg.text)
    translation := translationOf (!ctx.no_translate) o.transExtractOk o.transRes }

/-- Indexed map: the enumerate(segments, start=i) loop skeleton shared
by the per-segment loop and the four emitters. -/
def mapWithIdx (f : ℕ → α → β) : ℕ → List α → List β
  | _, [] => []
  | i, a :: rest => f i a :: mapWithIdx f (i+1) rest

lemma mapWithIdx_length (f : ℕ → α → β) (i : ℕ) (l : List α) :
    (mapWithIdx f i l).length = l.length := by
  induction l generalizing i with
  | nil => rfl
  | cons a rest ih => simp [mapWithIdx, ih]

lemma mapWithIdx_get (f : ℕ → α → β) (i : ℕ) (l : List α) (k : ℕ)
    (h : k < l.length) (h2 : k < (mapWithIdx f i l).length) :
    (mapWithIdx f i l).get ⟨k, h2⟩ = f (i + k) (l.get ⟨k, h⟩) := by
  induction l generalizing i k with
  | nil => simp at h
  | cons a rest ih =>
    cases k with
    | zero => rfl
    | succ k2 =>
      have h3 : k2 < rest.length := by simpa using h
      have h4 : k2 < (mapWithIdx f (i+1) rest).length := by
        rw [mapWithIdx_length]; exact h3
      have := ih (i+1) k2 h3 h4
      simpa [mapWithIdx, Nat.add_assoc, Nat.add_comm 1 k2] using this

/-- The whole per-segment loop (lines 205-264): enumerate the raw
segments, process each with its own oracles, collect in order. -/
def runLoop (ctx : RunCtx) (d : String → Except Unit String)
    (ors : ℕ → SegOracles) (segs : List RawSeg) : List Segment :=
  mapWithIdx (fun i seg => processSegment ctx d (ors i) seg) 0 segs

/-! The four text emitters.  Each is modelled as the full file content
it writes: header (VTT) or nothing (SRT), then one cue per segment. -/

/-- Cue body of the original-track emitters: "[lang] text" when lang is
non-empty, else just the stripped text. -/
def originalCueBody (s : Segment) : String :=
  if s.lang ≠ "" then "[" ++ s.lang ++ "] " ++ pyStrip s.text
  else pyStrip s.text

/-- Cue body of the translation-track emitters: the stripped translation
when present and truthy both before and after stripping, else the
stripped original text (lines 97-102 / 134-139). -/
def translationCueBody (s : Segment) : String :=
  match s.translation with
  | some t => if t ≠ "" ∧ pyStrip t ≠ "" then pyStrip t else pyStrip s.text
  | none => pyStrip s.text

/-- One cue of write_vtt_original. -/
def vttOriginalCue (i : ℕ) (s : Segment) : String :=
  toString i ++ "\n"
    ++ seconds_to_vtt_timestamp s.start ++ " --> " ++ seconds_to_vtt_timestamp s.stop ++ "\n"
    ++ originalCueBody s ++ "\n\n"

/-- One cue of write_vtt_translation. -/
def vttTranslationCue (i : ℕ) (s : Segment) : String :=
  toString i ++ "\n"
    ++ seconds_to_vtt_timestamp s.start ++ " --> " ++ seconds_to_vtt_timestamp s.stop ++ "\n"
    ++ translationCueBody s ++ "\n\n"

/-- One cue of write_srt_original. -/
def srtOriginalCue (i : ℕ) (s : Segment) : String :=
  toString i ++ "\n"
    ++ seconds_to_srt_timestamp s.start ++ " --> " ++ seconds_to_srt_timestamp s.stop ++ "\n"
    ++ originalCueBody s ++ "\n\n"

/-- One cue of write_srt_translation. -/
def srtTranslationCue (i : ℕ) (s : Segment) : String :=
  toString i ++ "\n"
    ++ seconds_to_srt_timestamp s.start ++ " --> " ++ seconds_to_srt_timestamp s.stop ++ "\n"
    ++ translationCueBody s ++ "\n\n"

/-- write_vtt_original: WEBVTT header then the numbered cues. -/
def write_vtt_original (segments : List Segment) : String :=
  "WEBVTT\n\n" ++ String.join (mapWithIdx vttOriginalCue 1 segments)

/-- write_vtt_translation: WEBVTT header then the numbered cues. -/
def write_vtt_translation (segments : List Segment) : String :=
  "WEBVTT\n\n" ++ String.join (mapWithIdx vttTranslationCue 1 segments)

/-- write_srt_original: no header (SRT), just the numbered cues. -/
def write_srt_original (segments : List Segment) : String :=
  String.join (mapWithIdx srtOriginalCue 1 segments)

/-- write_srt_translation: no header (SRT), just the numbered cues. -/
def write_srt_translation (segments : List Segment) : String :=
  String.join (mapWithIdx srtTranslationCue 1 segments)

/-- The files main writes at the end of a run (lines 266-295): the en
tracks are omitted under --no-translate; the JSON dump serializes the
processed records themselves. -/
structure RunOutputs where
  originalVtt : String
  originalSrt : String
  enVtt : Option String
  enSrt : Option String
  jsonSegments : List Segment

/-- The pipeline from raw segments to the emitted outputs. -/
def runOutputs (ctx : RunCtx) (d : String → Except Unit String)
    (ors : ℕ → SegOracles) (segs : List RawSeg) : RunOutputs :=
  let processed := runLoop ctx d ors segs
  { originalVtt := write_vtt_original processed
    originalSrt := write_srt_original processed
    enVtt := if ctx.no_translate then none else some (write_vtt_translation processed)
    enSrt := if ctx.no_translate then none else some (write_srt_translation processed)
    jsonSegments := processed }

/-! A trace model of main's control flow around the missing-input check
(lines 186-192): statement order of the externally visible actions. -/

/-- Externally visible actions of main, in source order. -/
inductive MainAction where
  | printMissingVideo
  | loadModel
  | extractFullAudio
  | transcribeFull
  | writeOutputFiles
deriving DecidableEq

/-- Lines 186-305: if the video path is not a file, print the message
and return; otherwise load the model and run the pipeline. -/
def mainTrace (videoIsFile : Bool) : List MainAction :=
  if videoIsFile then
    [MainAction.loadModel, MainAction.extractFullAudio,
     MainAction.transcribeFull, MainAction.writeOutputFiles]
  else
    [MainAction.printMissingVideo]

/-- Exit code when main returns at the missing-video check: the plain
return exits the interpreter normally, status 0.  none means the
pipeline continues past the check. -/
def mainEarlyExitCode (videoIsFile : Bool) : Option ℕ :=
  if videoIsFile then none else some 0

/-- Modelled from the spec (claim side, for the refinement statement of
C1): the translation-track cue body is the trimmed translation when
present and non-empty after trimming, otherwise the trimmed text. -/
def specTranslationBody (s : Segment) : String :=
  match s.translation with
  | some t => if pyStrip t = "" then pyStrip s.text else pyStrip t
  | none => pyStrip s.text

/-! Helper lemmas about stripping. -/

lemma dropWhile_eq_self_of_append (p : Char → Bool) (a b : List Char)
    (h : (a ++ b).dropWhile p = a ++ b) : a.dropWhile p = a := by
  cases a with
  | nil => rfl
  | cons c a2 =>
    by_cases hc : p c
    · exfalso
      rw [List.cons_append, List.dropWhile_cons_of_pos hc] at h
      have h1 : ((a2 ++ b).dropWhile p).length ≤ (a2 ++ b).length :=
        (List.dropWhile_suffix p).length_le
      rw [h] at h1
      simp at h1
    · rw [List.dropWhile_cons_of_neg hc]

lemma stripChars_dropWhile (l : List Char) :
    (stripChars l).dropWhile pyIsSpace = stripChars l := by
  have hm : (l.dropWhile pyIsSpace).dropWhile pyIsSpace = l.dropWhile pyIsSpace :=
    List.dropWhile_idempotent pyIsSpace l
  obtain ⟨t, ht⟩ :=
    List.rdropWhile_prefix pyIsSpace (l.dropWhile pyIsSpace)
  have hrd : stripChars l = List.rdropWhile pyIsSpace (l.dropWhile pyIsSpace) := rfl
  rw [hrd]
  refine dropWhile_eq_self_of_append pyIsSpace _ t ?_
  rw [ht]
  exact hm

lemma stripChars_idem (l : List Char) : stripChars (stripChars l) = stripChars l := by
  calc stripChars (stripChars l)
      = List.rdropWhile pyIsSpace ((stripChars l).dropWhile pyIsSpace) := rfl
    _ = List.rdropWhile pyIsSpace (stripChars l) := by rw [stripChars_dropWhile]
    _ = List.rdropWhile pyIsSpace
          (List.rdropWhile pyIsSpace (l.dropWhile pyIsSpace)) := rfl
    _ = List.rdropWhile pyIsSpace (l.dropWhile pyIsSpace) :=
        List.rdropWhile_idempotent _ _
    _ = stripChars l := rfl

lemma pyStrip_idem (s : String) : pyStrip (pyStrip s) = pyStrip s := by
  unfold pyStrip
  rw [show (String.mk (stripChars s.data)).data = stripChars s.data from rfl,
    stripChars_idem]

lemma pyStrip_empty : pyStrip "" = "" := rfl

/-- transcribe_segment_audio always returns an already-stripped string. -/
lemma transcribe_segment_audio_stripped (res : TranscribeResult) :
    pyStrip (transcribe_segment_audio res) = transcribe_segment_audio res := by
  unfold transcribe_segment_audio
  cases res.segments with
  | nil => exact pyStrip_idem _
  | cons s rest => exact pyStrip_idem _

lemma mem_mapWithIdx {f : ℕ → α → β} {b : β} {i : ℕ} {l : List α}
    (h : b ∈ mapWithIdx f i l) : ∃ j a, a ∈ l ∧ b = f j a := by
  induction l generalizing i with
  | nil => simp [mapWithIdx] at h
  | cons a rest ih =>
    rw [mapWithIdx] at h
    rcases List.mem_cons.mp h with h1 | h2
    · exact ⟨i, a, List.mem_cons_self a rest, h1⟩
    · obtain ⟨j, a2, ha, hb⟩ := ih h2
      exact ⟨j, a2, List.mem_cons_of_mem a ha, hb⟩

/-- The source's translation-track cue body agrees with the spec's
description of it. -/
lemma translationCueBody_eq_spec (s : Segment) :
    translationCueBody s = specTranslationBody s := by
  unfold translationCueBody specTranslationBody
  cases s.translation with
  | none => rfl
  | some t =>
    dsimp only
    by_cases h : pyStrip t = ""
    · rw [if_pos h, if_neg]
      rintro ⟨-, h2⟩
      exact h2 h
    · have ht : t ≠ "" := by
        intro e
        rw [e] at h
        exact h pyStrip_empty
      rw [if_pos (And.intro ht h), if_neg h]

/-- C1: for every segment, the translation-track emitters (VTT and SRT)
write as cue body the trimmed translation when it is present and
non-empty after trimming, and otherwise the segment's trimmed text; in
particular the cue body equals the trimmed text when translation is
absent, and is non-empty whenever the trimmed text is non-empty. -/
theorem C1_translation_track_fallback (i : ℕ) (s : Segment) :
    vttTranslationCue i s
      = toString i ++ "\n" ++ seconds_to_vtt_timestamp s.start ++ " --> "
        ++ seconds_to_vtt_timestamp s.stop ++ "\n" ++ specTranslationBody s ++ "\n\n"
    ∧ srtTranslationCue i s
      = toString i ++ "\n" ++ seconds_to_srt_timestamp s.start ++ " --> "
        ++ seconds_to_srt_timestamp s.stop ++ "\n" ++ specTranslationBody s ++ "\n\n"
    ∧ (s.translation = none → specTranslationBody s = pyStrip s.text)
    ∧ (∀ t, s.translation = some t → pyStrip t ≠ "" →
        specTranslationBody s = pyStrip t)
    ∧ (∀ t, s.translation = some t → pyStrip t = "" →
        specTranslationBody s = pyStrip s.text)
    ∧ (pyStrip s.text ≠ "" → specTranslationBody s ≠ "") := by
  refine ⟨?_, ?_, ?_, ?_, ?_, ?_⟩
  · unfold vttTranslationCue
    rw [translationCueBody_eq_spec]
  · unfold srtTranslationCue
    rw [translationCueBody_eq_spec]
  · intro h
    unfold specTranslationBody
    rw [h]
  · intro t h hne
    unfold specTranslationBody
    rw [h]
    dsimp only
    rw [if_neg hne]
  · intro t h he
    unfold specTranslationBody
    rw [h]
    dsimp only
    rw [if_pos he]
  · intro hne
    unfold specTranslationBody
    cases ht : s.translation with
    | none => exact hne
    | some t =>
      dsimp only
      by_cases h : pyStrip t = ""
      · rw [if_pos h]; exact hne
      · rw [if_neg h]; exact h

theorem C1_translation_track_fallback_witness :
    specTranslationBody ⟨0, 1, "fr", " Bonjour ", none⟩ = pyStrip " Bonjour "
    ∧ specTranslationBody ⟨0, 1, "fr", " Bonjour ", none⟩ ≠ "" :=
  ⟨(C1_translation_track_fallback 1 ⟨0, 1, "fr", " Bonjour ", none⟩).2.2.1 rfl,
   (C1_translation_track_fallback 1 ⟨0, 1, "fr", " Bonjour ", none⟩).2.2.2.2.2
     (by decide)⟩

/-- C9: when the input video path does not name an existing file, main
prints the missing-file message and returns before the model is loaded
or any audio is extracted; no output file is written and the process
exits with status 0. -/
theorem C9_missing_video_aborts :
    mainTrace false = [MainAction.printMissingVideo]
    ∧ MainAction.loadModel ∉ mainTrace false
    ∧ MainAction.extractFullAudio ∉ mainTrace false
    ∧ MainAction.transcribeFull ∉ mainTrace false
    ∧ MainAction.writeOutputFiles ∉ mainTrace false
    ∧ mainEarlyExitCode false = some 0 := by
  refine ⟨rfl, ?_, ?_, ?_, ?_, rfl⟩ <;> decide

/-- C10: the orchestrator defaults a missing start to 0.0 and a missing
end to start + 0.5, so every enriched record carries numeric start/end,
and end exceeds start whenever end was absent in the raw segment. -/
theorem C10_default_timing (ctx : RunCtx) (d : String → Except Unit String)
    (o : SegOracles) (seg : RawSeg) :
    (processSegment ctx d o seg).start = seg.start.getD 0
    ∧ (∀ e, seg.stop = some e → (processSegment ctx d o seg).stop = e)
    ∧ (seg.start = none → (processSegment ctx d o seg).start = 0)
    ∧ (seg.stop = none →
        (processSegment ctx d o seg).stop
          = (processSegment ctx d o seg).start + 1/2
        ∧ (processSegment ctx d o seg).start < (processSegment ctx d o seg).stop) := by
  refine ⟨rfl, ?_, ?_, ?_⟩
  · intro e h
    unfold processSegment
    rw [h]
    rfl
  · intro h
    unfold processSegment
    rw [h]
    rfl
  · intro h
    unfold processSegment
    rw [h]
    constructor
    · rfl
    · show seg.start.getD 0 < seg.start.getD 0 + 1/2
      linarith

/-- C2: each of the four text emitters writes its format-specific header
("WEBVTT" plus a blank line for VTT, the empty header for SRT) followed
by exactly one cue per segment in list order; the k-th cue (0-based)
carries sequence number k+1, a start/end timestamp line in the format's
separator convention, and a blank-line-terminated body. -/
theorem C2_emitter_structure (segs : List Segment) :
    write_vtt_original segs
      = "WEBVTT\n\n" ++ String.join (mapWithIdx vttOriginalCue 1 segs)
    ∧ write_vtt_translation segs
      = "WEBVTT\n\n" ++ String.join (mapWithIdx vttTranslationCue 1 segs)
    ∧ write_srt_original segs
      = "" ++ String.join (mapWithIdx srtOriginalCue 1 segs)
    ∧ write_srt_translation segs
      = "" ++ String.join (mapWithIdx srtTranslationCue 1 segs)
    ∧ (mapWithIdx vttOriginalCue 1 segs).length = segs.length
    ∧ (mapWithIdx vttTranslationCue 1 segs).length = segs.length
    ∧ (mapWithIdx srtOriginalCue 1 segs).length = segs.length
    ∧ (mapWithIdx srtTranslationCue 1 segs).length = segs.length
    ∧ ∀ (k : ℕ) (h : k < segs.length),
        (∀ h1 : k < (mapWithIdx vttOriginalCue 1 segs).length,
          (mapWithIdx vttOriginalCue 1 segs).get ⟨k, h1⟩
            = toString (k + 1) ++ "\n"
              ++ seconds_to_vtt_timestamp (segs.get ⟨k, h⟩).start ++ " --> "
              ++ seconds_to_vtt_timestamp (segs.get ⟨k, h⟩).stop ++ "\n"
              ++ originalCueBody (segs.get ⟨k, h⟩) ++ "\n\n")
        ∧ (∀ h2 : k < (mapWithIdx vttTranslationCue 1 segs).length,
          (mapWithIdx vttTranslationCue 1 segs).get ⟨k, h2⟩
            = toString (k + 1) ++ "\n"
              ++ seconds_to_vtt_timestamp (segs.get ⟨k, h⟩).start ++ " --> "
              ++ seconds_to_vtt_timestamp (segs.get ⟨k, h⟩).stop ++ "\n"
              ++ translationCueBody (segs.get ⟨k, h⟩) ++ "\n\n")
        ∧ (∀ h3 : k < (mapWithIdx srtOriginalCue 1 segs).length,
          (mapWithIdx srtOriginalCue 1 segs).get ⟨k, h3⟩
            = toString (k + 1) ++ "\n"
              ++ seconds_to_srt_timestamp (segs.get ⟨k, h⟩).start ++ " --> "
              ++ seconds_to_srt_timestamp (segs.get ⟨k, h⟩).stop ++ "\n"
              ++ originalCueBody (segs.get ⟨k, h⟩) ++ "\n\n")
        ∧ (∀ h4 : k < (mapWithIdx srtTranslationCue 1 segs).length,
          (mapWithIdx srtTranslationCue 1 segs).get ⟨k, h4⟩
            = toString (k + 1) ++ "\n"
              ++ seconds_to_srt_timestamp (segs.get ⟨k, h⟩).start ++ " --> "
              ++ seconds_to_srt_timestamp (segs.get ⟨k, h⟩).stop ++ "\n"
              ++ translationCueBody (segs.get ⟨k, h⟩) ++ "\n\n") := by
  refine ⟨rfl, rfl, rfl, rfl, mapWithIdx_length _ _ _, mapWithIdx_length _ _ _,
    mapWithIdx_length _ _ _, mapWithIdx_length _ _ _, ?_⟩
  intro k h
  refine ⟨?_, ?_, ?_, ?_⟩
  all_goals intro hb
  all_goals rw [mapWithIdx_get _ 1 segs k h hb, Nat.add_comm 1 k]
  all_goals rfl

theorem C2_emitter_structure_witness :
    (mapWithIdx vttOriginalCue 1 [(⟨0, 1, "es", "Hola", some "Hello"⟩ : Segment)]).get
        ⟨0, by decide⟩
      = toString (0 + 1) ++ "\n"
        ++ seconds_to_vtt_timestamp
            (([(⟨0, 1, "es", "Hola", some "Hello"⟩ : Segment)]).get ⟨0, by decide⟩).start
        ++ " --> "
        ++ seconds_to_vtt_timestamp
            (([(⟨0, 1, "es", "Hola", some "Hello"⟩ : Segment)]).get ⟨0, by decide⟩).stop
        ++ "\n"
        ++ originalCueBody (([(⟨0, 1, "es", "Hola", some "Hello"⟩ : Segment)]).get ⟨0, by decide⟩)
        ++ "\n\n" :=
  ((C2_emitter_structure [⟨0, 1, "es", "Hola", some "Hello"⟩]).2.2.2.2.2.2.2.2
    0 (by decide)).1 (by decide)

lemma pyRound_nonneg (x : ℚ) (h : 0 ≤ x) : 0 ≤ pyRound x := by
  have h2 : 0 ≤ ⌊x⌋ := Int.floor_nonneg.mpr h
  unfold pyRound
  split_ifs <;> omega

/-- C3: the timestamp formatters produce zero-padded HH:MM:SS.mmm (VTT)
and HH:MM:SS,mmm (SRT); hours are not capped at 24 (90000 s prints as 25
hours); milliseconds are rounded to the nearest integer, and a rounding
that yields 1000 ms is written into the millisecond field without
carrying into seconds (0.9999 s prints as 00:00:00.1000 with the second
field still 00); 0.0 and 3661.5 map to the documented strings. -/
theorem C3_timestamp_format :
    seconds_to_vtt_timestamp 0 = "00:00:00.000"
    ∧ seconds_to_srt_timestamp 0 = "00:00:00,000"
    ∧ seconds_to_vtt_timestamp (7323/2) = "01:01:01.500"
    ∧ seconds_to_srt_timestamp (7323/2) = "01:01:01,500"
    ∧ seconds_to_vtt_timestamp 90000 = "25:00:00.000"
    ∧ seconds_to_vtt_timestamp (9999/10000) = "00:00:00.1000"
    ∧ sOf (9999/10000) = 0
    ∧ msOf (9999/10000) = 1000
    ∧ (∀ q : ℚ, 0 ≤ q →
        |((msOf q : ℚ)) - (q - ⌊q⌋) * 1000| ≤ 1/2)
    ∧ (∀ q : ℚ,
        seconds_to_vtt_timestamp q
          = padZero 2 (hOf q) ++ ":" ++ padZero 2 (mOf q) ++ ":"
            ++ padZero 2 (sOf q) ++ "." ++ padZero 3 (msOf q)
        ∧ seconds_to_srt_timestamp q
          = padZero 2 (hOf q) ++ ":" ++ padZero 2 (mOf q) ++ ":"
            ++ padZero 2 (sOf q) ++ "," ++ padZero 3 (msOf q)) := by
  have ht0 : ⌊(0 : ℚ)⌋ = 0 := by norm_num
  have ht1 : ⌊(7323/2 : ℚ)⌋ = 3661 := by norm_num
  have ht2 : ⌊(90000 : ℚ)⌋ = 90000 := by norm_num
  have ht3 : ⌊(9999/10000 : ℚ)⌋ = 0 := by norm_num
  refine ⟨?_, ?_, ?_, ?_, ?_, ?_, ?_, ?_, ?_, fun q => ⟨rfl, rfl⟩⟩
  · unfold seconds_to_vtt_timestamp hOf mOf sOf
    rw [msOf_eval 0 0 0 ht0 (by norm_num), totalSecondsOf_eval 0 0 ht0]
    decide
  · unfold seconds_to_srt_timestamp hOf mOf sOf
    rw [msOf_eval 0 0 0 ht0 (by norm_num), totalSecondsOf_eval 0 0 ht0]
    decide
  · unfold seconds_to_vtt_timestamp hOf mOf sOf
    rw [msOf_eval (7323/2) 3661 500 ht1 (by norm_num),
      totalSecondsOf_eval (7323/2) 3661 ht1]
    decide
  · unfold seconds_to_srt_timestamp hOf mOf sOf
    rw [msOf_eval (7323/2) 3661 500 ht1 (by norm_num),
      totalSecondsOf_eval (7323/2) 3661 ht1]
    decide
  · unfold seconds_to_vtt_timestamp hOf mOf sOf
    rw [msOf_eval 90000 90000 0 ht2 (by norm_num),
      totalSecondsOf_eval 90000 90000 ht2]
    decide
  · unfold seconds_to_vtt_timestamp hOf mOf sOf
    rw [msOf_eval_up (9999/10000) 0 999 ht3 (by push_cast; norm_num)
        (by push_cast; norm_num),
      totalSecondsOf_eval (9999/10000) 0 ht3]
    decide
  · unfold sOf
    rw [totalSecondsOf_eval (9999/10000) 0 ht3]
    decide
  · rw [msOf_eval_up (9999/10000) 0 999 ht3 (by push_cast; norm_num)
        (by push_cast; norm_num)]
    decide
  · intro q _hq
    have hfr : (0 : ℚ) ≤ (q - ⌊q⌋) * 1000 := by
      have h1 : ((⌊q⌋ : ℤ) : ℚ) ≤ q := Int.floor_le q
      have h2 : (0 : ℚ) ≤ q - ⌊q⌋ := by linarith
      positivity
    have hnn : 0 ≤ pyRound ((q - ⌊q⌋) * 1000) := pyRound_nonneg _ hfr
    have hcast : ((msOf q : ℚ)) = ((pyRound ((q - ⌊q⌋) * 1000) : ℤ) : ℚ) := by
      unfold msOf
      norm_cast
      exact Int.toNat_of_nonneg hnn
    rw [hcast]
    exact pyRound_close _

theorem C3_timestamp_format_witness :
    |((msOf 2 : ℚ)) - ((2 : ℚ) - ⌊(2 : ℚ)⌋) * 1000| ≤ 1/2 :=
  C3_timestamp_format.2.2.2.2.2.2.2.2.1 2 (by decide)

lemma startsWith_disjoint (c1 c2 : Char) (p1 p2 : List Char) (s : List Char)
    (hne : c1 ≠ c2) (h : startsWithChars (c1 :: p1) s = true) :
    startsWithChars (c2 :: p2) s = false := by
  cases s with
  | nil => simp [startsWithChars] at h
  | cons a ss =>
    simp only [startsWithChars, Bool.and_eq_true, beq_iff_eq] at h
    obtain ⟨h1, -⟩ := h
    subst h1
    have h2 : (c2 == c1) = false := beq_eq_false_iff_ne.mpr (Ne.symm hne)
    simp [startsWithChars, h2]

lemma es_not_pt (code : String) (h : strStartsWith code "es" = true) :
    strStartsWith code "pt" = false := by
  have hes : ("es" : String).data = ['e', 's'] := rfl
  have hpt : ("pt" : String).data = ['p', 't'] := rfl
  unfold strStartsWith at h ⊢
  rw [hes] at h
  rw [hpt]
  exact startsWith_disjoint 'e' 'p' _ _ _ (by decide) h

/-- C4: the Language Classifier returns "" on empty text without
consulting the detection oracle (the result is the same for every
oracle); on non-empty text it consults the oracle and maps a failure to
"", a code starting with "pt" to "pt", a code starting with "es" to
"es", and passes any other code through unchanged.  The embedding is a
total function, so no exception escapes: the failure branch is the ""
result. -/
theorem C4_language_classifier (d : String → Except Unit String) (text : String) :
    (detectedLangOf d "" = ""
      ∧ ∀ d2 : String → Except Unit String, detectedLangOf d2 "" = detectedLangOf d "")
    ∧ (text ≠ "" → detectedLangOf d text = detect_lang_of_text d text)
    ∧ (d text = Except.error () → detect_lang_of_text d text = "")
    ∧ (∀ code, d text = Except.ok code → strStartsWith code "pt" = true →
        detect_lang_of_text d text = "pt")
    ∧ (∀ code, d text = Except.ok code → strStartsWith code "es" = true →
        detect_lang_of_text d text = "es")
    ∧ (∀ code, d text = Except.ok code → strStartsWith code "pt" = false →
        strStartsWith code "es" = false → detect_lang_of_text d text = code) := by
  refine ⟨⟨by simp [detectedLangOf], fun d2 => by simp [detectedLangOf]⟩,
    ?_, ?_, ?_, ?_, ?_⟩
  · intro h
    unfold detectedLangOf
    rw [if_pos h]
  · intro h
    unfold detect_lang_of_text
    rw [h]
  · intro code h hpt
    unfold detect_lang_of_text
    rw [h]
    dsimp only
    rw [hpt]
    simp
  · intro code h hes
    have hpt := es_not_pt code hes
    unfold detect_lang_of_text
    rw [h]
    dsimp only
    rw [hpt, hes]
    simp
  · intro code h hpt hes
    unfold detect_lang_of_text
    rw [h]
    dsimp only
    rw [hpt, hes]
    simp

theorem C4_language_classifier_witness :
    detect_lang_of_text (fun _ => Except.ok "pt-br") "ola" = "pt"
    ∧ detectedLangOf (fun _ => Except.ok "pt-br") "ola"
      = detect_lang_of_text (fun _ => Except.ok "pt-br") "ola" :=
  ⟨(C4_language_classifier (fun _ => Except.ok "pt-br") "ola").2.2.2.1
      "pt-br" rfl (by decide),
   (C4_language_classifier (fun _ => Except.ok "pt-br") "ola").2.1 (by decide)⟩

/-- C5: when refinement is not enabled or the chosen language is not
"pt"/"es" (e.g. "fr" or the unknown empty code), the refinement gate is
closed, the segment's result does not depend on the refinement oracles
at all (the Segment Refiner is never invoked), and the text stays the
trimmed whole-file text. -/
theorem C5_refinement_gating (ctx : RunCtx) (d : String → Except Unit String)
    (seg : RawSeg) (o o2 : SegOracles)
    (hgate : ¬(ctx.refine_per_segment = true
      ∧ (chosenLangOf ctx d (pyStrip seg.text) = "pt"
        ∨ chosenLangOf ctx d (pyStrip seg.text) = "es")))
    (htO : o.transExtractOk = o2.transExtractOk) (htR : o.transRes = o2.transRes) :
    refineGate ctx (chosenLangOf ctx d (pyStrip seg.text)) = false
    ∧ processSegment ctx d o seg = processSegment ctx d o2 seg
    ∧ (processSegment ctx d o seg).text = pyStrip seg.text := by
  have hg : refineGate ctx (chosenLangOf ctx d (pyStrip seg.text)) = false := by
    unfold refineGate
    rcases Bool.eq_false_or_eq_true ctx.refine_per_segment with hr | hr
    · rw [hr]
      simp only [Bool.true_and, Bool.or_eq_false_iff, beq_eq_false_iff_ne]
      exact ⟨fun hb => hgate ⟨hr, Or.inl hb⟩, fun hb => hgate ⟨hr, Or.inr hb⟩⟩
    · rw [hr]
      rfl
  refine ⟨hg, ?_, ?_⟩
  · unfold processSegment
    rw [hg, htO, htR]
    simp [refinedText]
  · unfold processSegment
    rw [hg]
    rfl

theorem C5_refinement_gating_witness :
    refineGate ⟨true, false, some "en"⟩
      (chosenLangOf ⟨true, false, some "en"⟩ (fun _ => Except.ok "fr")
        (pyStrip (RawSeg.mk (some 0) (some 1) "Bonjour").text)) = false
    ∧ processSegment ⟨true, false, some "en"⟩ (fun _ => Except.ok "fr")
        ⟨true, ⟨[], "REF"⟩, true, ⟨[], "T"⟩⟩ (RawSeg.mk (some 0) (some 1) "Bonjour")
      = processSegment ⟨true, false, some "en"⟩ (fun _ => Except.ok "fr")
        ⟨false, ⟨[], "OTHER"⟩, true, ⟨[], "T"⟩⟩ (RawSeg.mk (some 0) (some 1) "Bonjour")
    ∧ (processSegment ⟨true, false, some "en"⟩ (fun _ => Except.ok "fr")
        ⟨true, ⟨[], "REF"⟩, true, ⟨[], "T"⟩⟩ (RawSeg.mk (some 0) (some 1) "Bonjour")).text
      = pyStrip (RawSeg.mk (some 0) (some 1) "Bonjour").text :=
  C5_refinement_gating ⟨true, false, some "en"⟩ (fun _ => Except.ok "fr")
    (RawSeg.mk (some 0) (some 1) "Bonjour")
    ⟨true, ⟨[], "REF"⟩, true, ⟨[], "T"⟩⟩
    ⟨false, ⟨[], "OTHER"⟩, true, ⟨[], "T"⟩⟩
    (by decide) rfl rfl

/-- C6: per-segment failure containment.  A failed slice extraction
during refinement leaves the segment's text at the trimmed whole-file
text; a failed extraction during translation leaves translation absent;
neither affects any other segment (segment k of the loop output depends
only on oracle k); the run still produces every output over all N
segments; and the finally block removes the slice file whenever removal
succeeds, while a removal failure is swallowed (the file just stays). -/
theorem C6_failure_containment (ctx : RunCtx) (d : String → Except Unit String)
    (o : SegOracles) (seg : RawSeg) (ors : ℕ → SegOracles) (segs : List RawSeg)
    (existsAtFinally : Bool) :
    (o.refineExtractOk = false → (processSegment ctx d o seg).text = pyStrip seg.text)
    ∧ (o.transExtractOk = false → (processSegment ctx d o seg).translation = none)
    ∧ (runLoop ctx d ors segs).length = segs.length
    ∧ (∀ (k : ℕ) (h : k < segs.length) (h2 : k < (runLoop ctx d ors segs).length),
        (runLoop ctx d ors segs).get ⟨k, h2⟩
          = processSegment ctx d (ors k) (segs.get ⟨k, h⟩))
    ∧ (runOutputs ctx d ors segs).jsonSegments = runLoop ctx d ors segs
    ∧ (runOutputs ctx d ors segs).originalVtt
      = write_vtt_original (runLoop ctx d ors segs)
    ∧ (runOutputs ctx d ors segs).originalSrt
      = write_srt_original (runLoop ctx d ors segs)
    ∧ (ctx.no_translate = false →
        (runOutputs ctx d ors segs).enVtt
          = some (write_vtt_translation (runLoop ctx d ors segs))
        ∧ (runOutputs ctx d ors segs).enSrt
          = some (write_srt_translation (runLoop ctx d ors segs)))
    ∧ sliceFileRemains existsAtFinally true = false
    ∧ sliceFileRemains existsAtFinally false = existsAtFinally := by
  refine ⟨?_, ?_, mapWithIdx_length _ _ _, ?_, rfl, rfl, rfl, ?_, ?_, ?_⟩
  · intro h
    simp [processSegment, refinedText, h]
  · intro h
    simp [processSegment, translationOf, h]
  · intro k h h2
    unfold runLoop at h2 ⊢
    rw [mapWithIdx_get _ 0 segs k h h2]
    simp
  · intro h
    simp [runOutputs, h]
  · cases existsAtFinally <;> rfl
  · cases existsAtFinally <;> rfl

theorem C6_failure_containment_witness :
    (processSegment ⟨true, false, some "pt"⟩ (fun _ => Except.error ())
        ⟨false, ⟨[], "R"⟩, false, ⟨[], "T"⟩⟩ (RawSeg.mk (some 0) (some 1) " Oi ")).text
      = pyStrip (RawSeg.mk (some 0) (some 1) " Oi ").text
    ∧ (processSegment ⟨true, false, some "pt"⟩ (fun _ => Except.error ())
        ⟨false, ⟨[], "R"⟩, false, ⟨[], "T"⟩⟩
        (RawSeg.mk (some 0) (some 1) " Oi ")).translation = none
    ∧ sliceFileRemains true true = false :=
  ⟨(C6_failure_containment ⟨true, false, some "pt"⟩ (fun _ => Except.error ())
      ⟨false, ⟨[], "R"⟩, false, ⟨[], "T"⟩⟩ (RawSeg.mk (some 0) (some 1) " Oi ")
      (fun _ => ⟨false, ⟨[], "R"⟩, false, ⟨[], "T"⟩⟩)
      [RawSeg.mk (some 0) (some 1) " Oi "] true).1 rfl,
   (C6_failure_containment ⟨true, false, some "pt"⟩ (fun _ => Except.error ())
      ⟨false, ⟨[], "R"⟩, false, ⟨[], "T"⟩⟩ (RawSeg.mk (some 0) (some 1) " Oi ")
      (fun _ => ⟨false, ⟨[], "R"⟩, false, ⟨[], "T"⟩⟩)
      [RawSeg.mk (some 0) (some 1) " Oi "] true).2.1 rfl,
   (C6_failure_containment ⟨true, false, some "pt"⟩ (fun _ => Except.error ())
      ⟨false, ⟨[], "R"⟩, false, ⟨[], "T"⟩⟩ (RawSeg.mk (some 0) (some 1) " Oi ")
      (fun _ => ⟨false, ⟨[], "R"⟩, false, ⟨[], "T"⟩⟩)
      [RawSeg.mk (some 0) (some 1) " Oi "] true).2.2.2.2.2.2.2.2.1⟩

/-- C7: every enriched record the loop hands to the emitters and the
JSON dump carries either no translation (None) or a non-empty string
with no leading or trailing whitespace; never an empty string. -/
theorem C7_translation_invariant (ctx : RunCtx) (d : String → Except Unit String)
    (ors : ℕ → SegOracles) (segs : List RawSeg) (s : Segment)
    (hs : s ∈ runLoop ctx d ors segs) :
    s.translation = none
    ∨ ∃ t, s.translation = some t ∧ t ≠ "" ∧ pyStrip t = t := by
  obtain ⟨j, a, -, hb⟩ := mem_mapWithIdx hs
  rw [hb]
  show translationOf (!ctx.no_translate) (ors j).transExtractOk (ors j).transRes = none
    ∨ ∃ t, translationOf (!ctx.no_translate) (ors j).transExtractOk (ors j).transRes
        = some t ∧ t ≠ "" ∧ pyStrip t = t
  unfold translationOf
  split_ifs with h1 h2 h3
  · exact Or.inr ⟨_, rfl, h3, transcribe_segment_audio_stripped _⟩
  all_goals exact Or.inl rfl

theorem C7_translation_invariant_witness :
    (Segment.mk 0 1 "" "Hi" (some "Hello")).translation = none
    ∨ ∃ t, (Segment.mk 0 1 "" "Hi" (some "Hello")).translation = some t
        ∧ t ≠ "" ∧ pyStrip t = t :=
  C7_translation_invariant ⟨false, false, none⟩ (fun _ => Except.error ())
    (fun _ => ⟨true, ⟨[], ""⟩, true, ⟨[], " Hello "⟩⟩)
    [RawSeg.mk (some 0) (some 1) "Hi"]
    (Segment.mk 0 1 "" "Hi" (some "Hello")) (by decide)

lemma detect_lang_cases (d : String → Except Unit String) (text : String) :
    detect_lang_of_text d text = "" ∨ detect_lang_of_text d text = "pt"
    ∨ detect_lang_of_text d text = "es"
    ∨ ∃ code, d text = Except.ok code ∧ detect_lang_of_text d text = code := by
  unfold detect_lang_of_text
  cases hd : d text with
  | error e => exact Or.inl rfl
  | ok code =>
    dsimp only
    split_ifs with h1 h2
    · exact Or.inr (Or.inl rfl)
    · exact Or.inr (Or.inr (Or.inl rfl))
    · exact Or.inr (Or.inr (Or.inr ⟨code, rfl, rfl⟩))

lemma detectedLang_cases (d : String → Except Unit String) (text : String) :
    detectedLangOf d text = "" ∨ detectedLangOf d text = "pt"
    ∨ detectedLangOf d text = "es"
    ∨ ∃ code, d text = Except.ok code ∧ detectedLangOf d text = code := by
  unfold detectedLangOf
  split_ifs with h1
  · exact detect_lang_cases d text
  · exact Or.inl rfl

lemma chosenLang_cases (ctx : RunCtx) (d : String → Except Unit String)
    (text0 : String) :
    chosenLangOf ctx d text0 = "" ∨ chosenLangOf ctx d text0 = "pt"
    ∨ chosenLangOf ctx d text0 = "es"
    ∨ (∃ code, d text0 = Except.ok code ∧ chosenLangOf ctx d text0 = code)
    ∨ (∃ l, ctx.overall_lang = some l ∧ chosenLangOf ctx d text0 = l) := by
  unfold chosenLangOf
  split_ifs with h1
  · rcases detectedLang_cases d text0 with h | h | h | ⟨code, hc, he⟩
    · exact Or.inl h
    · exact Or.inr (Or.inl h)
    · exact Or.inr (Or.inr (Or.inl h))
    · exact Or.inr (Or.inr (Or.inr (Or.inl ⟨code, hc, he⟩)))
  · cases ho : ctx.overall_lang with
    | none => exact Or.inl rfl
    | some l =>
      dsimp only
      split_ifs with h2
      · exact Or.inr (Or.inr (Or.inr (Or.inr ⟨l, rfl, rfl⟩)))
      · exact Or.inl rfl

/-- C8 counterexample: langdetect can return the code "zh-cn"; the
classifier passes it through unchanged on non-empty input, and "zh-cn"
is neither empty nor two letters long, refuting the claim that the
output is always the empty string or a two-letter code. -/
theorem C8_two_letter_counterexample :
    detectedLangOf (fun _ => Except.ok "zh-cn") "hello" = "zh-cn"
    ∧ ¬((("zh-cn" : String) = "") ∨ ("zh-cn" : String).length = 2) :=
  ⟨by decide, by decide⟩

/-- C8 amended: the classifier's output is the empty string, "pt", "es",
or exactly the code the detection oracle returned (hence two-letter only
when that code is); a record's lang field additionally may be the
whole-file language reported by the transcription pass. -/
theorem C8_amended_lang_values (ctx : RunCtx) (d : String → Except Unit String)
    (text : String) (o : SegOracles) (seg : RawSeg) :
    (detectedLangOf d text = "" ∨ detectedLangOf d text = "pt"
      ∨ detectedLangOf d text = "es"
      ∨ ∃ code, d text = Except.ok code ∧ detectedLangOf d text = code)
    ∧ ((processSegment ctx d o seg).lang = ""
      ∨ (processSegment ctx d o seg).lang = "pt"
      ∨ (processSegment ctx d o seg).lang = "es"
      ∨ (∃ code, d (pyStrip seg.text) = Except.ok code
          ∧ (processSegment ctx d o seg).lang = code)
      ∨ (∃ l, ctx.overall_lang = some l ∧ (processSegment ctx d o seg).lang = l)) :=
  ⟨detectedLang_cases d text, chosenLang_cases ctx d (pyStrip seg.text)⟩

theorem C10_default_timing_witness :
    (processSegment ⟨false, false, none⟩ (fun _ => Except.error ())
        ⟨true, ⟨[], ""⟩, true, ⟨[], ""⟩⟩ ⟨none, none, "x"⟩).stop
      = (processSegment ⟨false, false, none⟩ (fun _ => Except.error ())
          ⟨true, ⟨[], ""⟩, true, ⟨[], ""⟩⟩ ⟨none, none, "x"⟩).start + 1/2
    ∧ (processSegment ⟨false, false, none⟩ (fun _ => Except.error ())
        ⟨true, ⟨[], ""⟩, true, ⟨[], ""⟩⟩ ⟨none, none, "x"⟩).start
      < (processSegment ⟨false, false, none⟩ (fun _ => Except.error ())
          ⟨true, ⟨[], ""⟩, true, ⟨[], ""⟩⟩ ⟨none, none, "x"⟩).stop :=
  (C10_default_timing ⟨false, false, none⟩ (fun _ => Except.error ())
    ⟨true, ⟨[], ""⟩, true, ⟨[], ""⟩⟩ ⟨none, none, "x"⟩).2.2.2 rfl
